import Mathlib

set_option maxRecDepth 4000

/-!
Verification of the statement-ingestion core of the finance-tracker
repository: field normalisation (`parseDate` / `parseAmount` in the
CSV-import dialogs), the tabular row-mapping pipeline
(`handleMappingComplete`), the generic statement-text fallback
(`parseGenericStatementPDF` in `server/routes.ts`), and the
reconciliation writer (`SupabaseStorage.createTransaction` and the
`/api/transactions/bulk` route).

Two copies of the CSV import dialog exist in the repository; their field
normalisers differ slightly.  Definitions prefixed `p1_` embed the copy in
`src/unnamed/part_001`; definitions prefixed `dlg_` embed the copy in
`src/client/src/components/csv-import-dialog.tsx`.

JavaScript strings are embedded as `String` / `List Char`, JavaScript
numbers as `Rat` (an `Option Rat` is used where `NaN` or `null` can
flow), and absent (`null`/`undefined`) arguments as an `Option` layer on
the input.
-/

namespace Fin818

/-- JS `\s` on the character set occurring in this code base (ASCII
whitespace).  Used for `trim`, the `\s` character class and `parseFloat`
leading-space skipping. -/
def isJsSpace (c : Char) : Bool :=
  c = ' ' || c = '\t' || c = '\n' || c = '\r' || c = '\x0b' || c = '\x0c'

/-- JS `String.prototype.trim`: drop whitespace from both ends. -/
def jsTrim (s : String) : String :=
  ⟨((s.data.dropWhile isJsSpace).reverse.dropWhile isJsSpace).reverse⟩

/-- Value of a decimal digit character (`c.toNat - 48` restricted to
`[0-9]`, on which it is only ever applied). -/
def digitVal : Char → Nat
  | '0' => 0 | '1' => 1 | '2' => 2 | '3' => 3 | '4' => 4
  | '5' => 5 | '6' => 6 | '7' => 7 | '8' => 8 | '9' => 9
  | _ => 0

/-- Numeric value of a digit string (most significant first). -/
def digitsToNat (l : List Char) : Nat :=
  l.foldl (fun n c => n * 10 + digitVal c) 0

/-- Exponent suffix accepted by JS `parseFloat` after `e`/`E`: optional
sign then digits; an ill-formed suffix contributes exponent 0 (JS stops
reading at the first character that cannot extend a valid literal). -/
def jsExpPart (r : List Char) : Int :=
  match r with
  | '-' :: d =>
      let ds := d.takeWhile Char.isDigit
      if ds.isEmpty then 0 else -(digitsToNat ds : Int)
  | '+' :: d =>
      let ds := d.takeWhile Char.isDigit
      if ds.isEmpty then 0 else (digitsToNat ds : Int)
  | d =>
      let ds := d.takeWhile Char.isDigit
      if ds.isEmpty then 0 else (digitsToNat ds : Int)

/-- JS `parseFloat`, for finite decimal literals: skip leading
whitespace, optional sign, integer digits, optional `.` plus fraction
digits, optional exponent; trailing garbage is ignored.  `none` stands
for `NaN` (no digits at all).  The value
`sign * (ipart + fpart / 10 ^ |fpart|) * 10 ^ expo` is assembled as one
exact `Rat.divInt`.  The special literal `Infinity`, which is not
representable in `Rat` and is never produced by this code base's data,
is outside the model. -/
def jsParseFloat (s : String) : Option Rat :=
  let cs := s.data.dropWhile isJsSpace
  let sgn : Int := match cs with
    | '-' :: _ => -1
    | _ => 1
  let cs1 : List Char := match cs with
    | '-' :: r => r
    | '+' :: r => r
    | _ => cs
  let ip := cs1.takeWhile Char.isDigit
  let rest1 := cs1.drop ip.length
  let fp : List Char := match rest1 with
    | '.' :: r => r.takeWhile Char.isDigit
    | _ => []
  let rest2 : List Char := match rest1 with
    | '.' :: r => r.drop (r.takeWhile Char.isDigit).length
    | _ => rest1
  if ip.isEmpty && fp.isEmpty then none
  else
    let expo : Int := match rest2 with
      | 'e' :: r => jsExpPart r
      | 'E' :: r => jsExpPart r
      | _ => 0
    let mantNum : Int := sgn * Int.ofNat (digitsToNat ip * 10 ^ fp.length + digitsToNat fp)
    some (Rat.divInt (mantNum * Int.ofNat (10 ^ expo.toNat))
      (Int.ofNat (10 ^ (fp.length + (-expo).toNat))))

/-- Character class of `replace(/[$£€¥,\s]/g, "")` in both `parseAmount`
copies. -/
def isCurrencyJunk (c : Char) : Bool :=
  c = '$' || c = '£' || c = '€' || c = '¥' || c = ',' || isJsSpace c

/-- One application of `replace(/\(([^)]+)\)/, "-$1")` (non-global: only
the first parenthesised group, which must contain at least one
non-`)` character, is rewritten to its negated form). -/
def parenNegate : List Char → List Char
  | [] => []
  | '(' :: rest =>
      let content := rest.takeWhile (fun c => !(c = ')'))
      if content.isEmpty then '(' :: parenNegate rest
      else
        match rest.drop content.length with
        | ')' :: after => '-' :: (content ++ after)
        | _ => '(' :: parenNegate rest
  | c :: rest => c :: parenNegate rest

/-- `parseAmount` from `src/unnamed/part_001` (lines 313–326).  The input
is `Option String`; `none` models an absent (`null`/`undefined`)
argument.  Note the source returns `0` — not `null` — for the empty
(or whitespace-only) string, alongside the literals `"0"` and `"0.0"`. -/
def p1_parseAmount (amountStr : Option String) : Option Rat :=
  match amountStr with
  | none => none
  | some s =>
      let str := jsTrim s
      if str = "" || str = "0" || str = "0.0" then some 0
      else
        let cleaned := parenNegate (str.data.filter (fun c => !isCurrencyJunk c))
        jsParseFloat ⟨cleaned⟩

/-- `parseAmount` from `csv-import-dialog.tsx` (lines 108–118): a falsy
(absent or empty) argument yields `null`; no trimming before cleaning. -/
def dlg_parseAmount (amountStr : Option String) : Option Rat :=
  match amountStr with
  | none => none
  | some s =>
      if s = "" then none
      else
        let cleaned := parenNegate (s.data.filter (fun c => !isCurrencyJunk c))
        jsParseFloat ⟨cleaned⟩

/-! ### Date normalisation (`parseDate`) -/

/-- `padStart(2, "0")` on a digit group. -/
def pad2 (cs : List Char) : List Char :=
  if cs.length = 0 then ['0', '0'] else if cs.length = 1 then '0' :: cs else cs

/-- `part_001` regex `/^(\d{4})-(\d{2})-(\d{2})\s/` (ISO date-time): the
three digit groups, provided the 11th character is whitespace. -/
def p1_isoDateTimeMatch : List Char → Option (List Char × List Char × List Char)
  | y1 :: y2 :: y3 :: y4 :: '-' :: m1 :: m2 :: '-' :: d1 :: d2 :: w :: _ =>
      if y1.isDigit && y2.isDigit && y3.isDigit && y4.isDigit &&
         m1.isDigit && m2.isDigit && d1.isDigit && d2.isDigit && isJsSpace w
      then some ([y1, y2, y3, y4], [m1, m2], [d1, d2]) else none
  | _ => none

/-- `part_001` regex `/^(\d{4})-(\d{2})-(\d{2})$/` (exact ISO date). -/
def p1_isoMatch : List Char → Option (List Char × List Char × List Char)
  | [y1, y2, y3, y4, '-', m1, m2, '-', d1, d2] =>
      if y1.isDigit && y2.isDigit && y3.isDigit && y4.isDigit &&
         m1.isDigit && m2.isDigit && d1.isDigit && d2.isDigit
      then some ([y1, y2, y3, y4], [m1, m2], [d1, d2]) else none
  | _ => none

/-- Year-then-end part `(\d{4})$` of the `part_001` `MM/DD/YYYY` regex. -/
def p1_mdyYear : List Char → Option (List Char)
  | [y1, y2, y3, y4] =>
      if y1.isDigit && y2.isDigit && y3.isDigit && y4.isDigit
      then some [y1, y2, y3, y4] else none
  | _ => none

/-- Day-and-year part `(\d{1,2})\/(\d{4})$` of the `part_001`
`MM/DD/YYYY` regex (the day group is delimited by the literal `/`). -/
def p1_mdyDayYear : List Char → Option (List Char × List Char)
  | d1 :: d2 :: '/' :: rest2 =>
      if d1.isDigit && d2.isDigit then
        (p1_mdyYear rest2).map (fun y => ([d1, d2], y))
      else none
  | d1 :: '/' :: rest2 =>
      if d1.isDigit then (p1_mdyYear rest2).map (fun y => ([d1], y))
      else none
  | _ => none

/-- `part_001` regex `/^(\d{1,2})\/(\d{1,2})\/(\d{4})$/` returning the
(month, day, year) groups.  The `\d{1,2}` groups are delimited by the
literal `/` separators, so the greedy match is the unique one. -/
def p1_mdyMatch (cs : List Char) : Option (List Char × List Char × List Char) :=
  match cs with
  | m1 :: m2 :: '/' :: rest =>
      if m1.isDigit && m2.isDigit then
        (p1_mdyDayYear rest).map (fun p => ([m1, m2], p.1, p.2))
      else none
  | m1 :: '/' :: rest =>
      if m1.isDigit then
        (p1_mdyDayYear rest).map (fun p => ([m1], p.1, p.2))
      else none
  | _ => none

/-- `parseDate` from `src/unnamed/part_001` (lines 280–311).  The JS
`Date`-constructor fallback (host-environment behaviour, not part of the
repository) is a parameter `fb`; every claim proved about this function
either avoids the fallback or quantifies over it. -/
def p1_parseDate (fb : String → Option String) (s : String) : Option String :=
  if s = "" then none
  else
    match p1_isoDateTimeMatch s.data with
    | some (y, m, d) => some ⟨y ++ '-' :: m ++ '-' :: d⟩
    | none =>
      match p1_isoMatch s.data with
      | some (y, m, d) => some ⟨y ++ '-' :: m ++ '-' :: d⟩
      | none =>
        match p1_mdyMatch s.data with
        | some (m, d, y) => some ⟨y ++ '-' :: pad2 m ++ '-' :: pad2 d⟩
        | none => fb s

/-- Dialog regex `/^(\d{4})-(\d{2})-(\d{2})/` — an unanchored prefix
match; anything may follow the third group. -/
def dlg_isoMatch : List Char → Option (List Char × List Char × List Char)
  | y1 :: y2 :: y3 :: y4 :: '-' :: m1 :: m2 :: '-' :: d1 :: d2 :: _ =>
      if y1.isDigit && y2.isDigit && y3.isDigit && y4.isDigit &&
         m1.isDigit && m2.isDigit && d1.isDigit && d2.isDigit
      then some ([y1, y2, y3, y4], [m1, m2], [d1, d2]) else none
  | _ => none

/-- Separator class `[\/\-]` of the dialog `MM/DD/YYYY` / `MM-DD-YYYY`
regex. -/
def isDateSep (c : Char) : Bool := c = '/' || c = '-'

/-- Year part `(\d{4})` of the dialog regex — a prefix match, anything
may follow the four digits. -/
def dlg_mdyYear : List Char → Option (List Char)
  | y1 :: y2 :: y3 :: y4 :: _ =>
      if y1.isDigit && y2.isDigit && y3.isDigit && y4.isDigit
      then some [y1, y2, y3, y4] else none
  | _ => none

/-- One alternative of the dialog `/^(\d{1,2})[\/\-](\d{1,2})[\/\-](\d{4})/`
match with month group of length `lm` and day group of length `ld`
(`lm`, `ld` ∈ {1, 2}). -/
def dlg_mdyTry (lm ld : Nat) (cs : List Char) : Option (List Char × List Char × List Char) :=
  let m := cs.take lm
  let afterM := cs.drop lm
  if m.length = lm && m.all Char.isDigit then
    match afterM with
    | s1 :: rest1 =>
        if isDateSep s1 then
          let d := rest1.take ld
          let afterD := rest1.drop ld
          if d.length = ld && d.all Char.isDigit then
            match afterD with
            | s2 :: rest2 =>
                if isDateSep s2 then (dlg_mdyYear rest2).map (fun y => (m, d, y))
                else none
            | _ => none
          else none
        else none
    | _ => none
  else none

/-- Dialog regex `/^(\d{1,2})[\/\-](\d{1,2})[\/\-](\d{4})/`: greedy
backtracking order — two-digit month before one-digit month, and within
each, two-digit day before one-digit day. -/
def dlg_mdyMatch (cs : List Char) : Option (List Char × List Char × List Char) :=
  match dlg_mdyTry 2 2 cs with
  | some r => some r
  | none =>
    match dlg_mdyTry 2 1 cs with
    | some r => some r
    | none =>
      match dlg_mdyTry 1 2 cs with
      | some r => some r
      | none => dlg_mdyTry 1 1 cs

/-- `parseDate` from `csv-import-dialog.tsx` (lines 69–106), with the JS
`Date` fallback as a parameter as in `p1_parseDate`.  (The unused
`formats` array in the source is dead code and has no embedding.) -/
def dlg_parseDate (fb : String → Option String) (s : String) : Option String :=
  if s = "" then none
  else
    match dlg_isoMatch s.data with
    | some (y, m, d) => some ⟨y ++ '-' :: m ++ '-' :: d⟩
    | none =>
      match dlg_mdyMatch s.data with
      | some (m, d, y) => some ⟨y ++ '-' :: pad2 m ++ '-' :: pad2 d⟩
      | none => fb s

/-- `s` is a string of shape `YYYY-MM-DD` (exactly ten characters,
digit groups separated by dashes). -/
def isoShaped (s : String) : Bool :=
  match s.data with
  | [a, b, c, d, '-', e, f, '-', g, h] =>
      a.isDigit && b.isDigit && c.isDigit && d.isDigit &&
      e.isDigit && f.isDigit && g.isDigit && h.isDigit
  | _ => false

/-- Whether `p1_parseDate` accepts `s` through one of its three
recognised formats (ISO date-time prefix, exact ISO date, `M/D/YYYY`) as
opposed to the `Date`-constructor fallback. -/
def p1_recognizedDate (s : String) : Bool :=
  (p1_isoDateTimeMatch s.data).isSome || (p1_isoMatch s.data).isSome ||
    (p1_mdyMatch s.data).isSome

/-- Whether `dlg_parseDate` accepts `s` through one of its regex formats
(ISO prefix, or `M/D/YYYY` with `/` or `-` separators). -/
def dlg_recognizedDate (s : String) : Bool :=
  (dlg_isoMatch s.data).isSome || (dlg_mdyMatch s.data).isSome

/-- Gregorian leap-year rule. -/
def isLeapYear (y : Nat) : Bool :=
  (y % 4 = 0 && !(y % 100 = 0)) || y % 400 = 0

/-- Number of days in month `m` of year `y` (0 for an out-of-range
month). -/
def daysInMonth (y m : Nat) : Nat :=
  if m = 1 || m = 3 || m = 5 || m = 7 || m = 8 || m = 10 || m = 12 then 31
  else if m = 4 || m = 6 || m = 9 || m = 11 then 30
  else if m = 2 then (if isLeapYear y then 29 else 28)
  else 0

/-- An ISO-shaped string denotes a real calendar date: month in 1..12
and day in 1..(days of that month). -/
def isoRealDate (s : String) : Bool :=
  match s.data with
  | [a, b, c, d, '-', e, f, '-', g, h] =>
      let y := digitsToNat [a, b, c, d]
      let m := digitsToNat [e, f]
      let dd := digitsToNat [g, h]
      (a.isDigit && b.isDigit && c.isDigit && d.isDigit &&
       e.isDigit && f.isDigit && g.isDigit && h.isDigit) &&
      1 ≤ m && m ≤ 12 && 1 ≤ dd && dd ≤ daysInMonth y m
  | _ => false

/-! ### Tabular ingestor: row mapping (`handleMappingComplete`) -/

/-- JS array indexing `row[i]` with an `Int` index (out-of-range and
negative indices give `undefined`). -/
def jsIndex (row : List String) (i : Int) : Option String :=
  if i < 0 then none else row.get? i.toNat

/-- `row[idx]?.trim() || ""` — the cell text handed to the field
normalisers. -/
def jsCell (row : List String) (i : Int) : String :=
  match jsIndex row i with
  | some s => jsTrim s
  | none => ""

/-- JS `Array.prototype.indexOf` on an array of strings (`-1` when
absent). -/
def jsIndexOfList : List String → String → Int
  | [], _ => -1
  | h :: t, x =>
      if h = x then 0
      else
        let r := jsIndexOfList t x
        if r = -1 then -1 else r + 1

/-- One parsed transaction candidate (`ParsedRow` in both dialogs).
`error` is the comma-joined failure-reason string (`undefined` when
empty, i.e. `none`). -/
structure ParsedRow where
  date : String
  description : String
  amount : Rat
  category : String
  isValid : Bool
  error : Option String
deriving DecidableEq, Repr

/-- JS falsiness of a `string | null` value: `null` or `""`. -/
def jsFalsyStr : Option String → Bool
  | none => true
  | some s => s = ""

/-- The failure-reason list accumulated for one row by
`handleMappingComplete` (identical in both dialog copies), parameterised
by the `parseDate` and `parseAmount` in scope. -/
def rowErrorsWith (pd : String → Option String) (pa : Option String → Option Rat)
    (dIdx deIdx aIdx : Int) (row : List String) : List String :=
  let dateStr := jsCell row dIdx
  let descStr := jsCell row deIdx
  let amountStr := jsCell row aIdx
  (if jsFalsyStr (pd dateStr) then ["Invalid date"] else []) ++
  (if descStr = "" then ["Missing description"] else []) ++
  (if pa (some amountStr) = none then ["Invalid amount"] else [])

/-- The candidate produced for one data row by `handleMappingComplete`
(identical row-mapping code in both dialog copies), parameterised by the
field normalisers in scope.  `cIdx` is the category column index
(`-1` when no category column is mapped). -/
def mapRowWith (pd : String → Option String) (pa : Option String → Option Rat)
    (dIdx deIdx aIdx cIdx : Int) (row : List String) : ParsedRow :=
  let dateStr := jsCell row dIdx
  let descStr := jsCell row deIdx
  let amountStr := jsCell row aIdx
  let categoryStr : Option String :=
    if 0 ≤ cIdx then (jsIndex row cIdx).map jsTrim else some ""
  let date := pd dateStr
  let amount := pa (some amountStr)
  let errors := rowErrorsWith pd pa dIdx deIdx aIdx row
  { date := match date with
      | some d => if d = "" then dateStr else d
      | none => dateStr
    description := descStr
    amount := match amount with
      | some a => a
      | none => 0
    category := match categoryStr with
      | some c => if c = "" then "Other" else c
      | none => "Other"
    isValid := errors.length = 0
    error := if errors.length > 0 then some (String.intercalate ", " errors) else none }

/-- `part_001` `handleMappingComplete` row phase: map every data row,
then `parsed.filter(row => row.amount !== 0 || !row.isValid)` — the
zero-amount post-filter.  (The dialog copy in `csv-import-dialog.tsx`
has no such filter.) -/
def p1_processRows (fb : String → Option String) (dIdx deIdx aIdx cIdx : Int)
    (rows : List (List String)) : List ParsedRow :=
  (rows.map (mapRowWith (p1_parseDate fb) p1_parseAmount dIdx deIdx aIdx cIdx)).filter
    (fun r => !(r.amount = 0) || !r.isValid)

/-- The dialog wizard step. -/
inductive Step where
  | upload
  | mapping
  | preview
  | complete
deriving DecidableEq, Repr

/-- The column mapping state (`ColumnMapping`): header names of the
mapped columns; `""` is the unassigned (falsy) value. -/
structure ColumnMapping where
  date : String
  description : String
  amount : String
  category : String
deriving DecidableEq, Repr

/-- The component state read and written by `handleMappingComplete` in
`part_001`. -/
structure DialogState where
  headers : List String
  csvData : List (List String)
  mapping : ColumnMapping
  selectedAccountId : String
  parsedRows : List ParsedRow
  step : Step
deriving DecidableEq, Repr

/-- `part_001` `handleMappingComplete` (lines 522–566): refuse the whole
batch (toast only, no state change) when a required column mapping or
the target account is missing; otherwise map all rows, apply the
zero-amount filter, store the result and move to the preview step. -/
def p1_handleMappingComplete (fb : String → Option String) (st : DialogState) : DialogState :=
  if st.mapping.date = "" || st.mapping.description = "" || st.mapping.amount = "" ||
     st.selectedAccountId = "" then
    st
  else
    let dIdx := jsIndexOfList st.headers st.mapping.date
    let deIdx := jsIndexOfList st.headers st.mapping.description
    let aIdx := jsIndexOfList st.headers st.mapping.amount
    let cIdx := if !(st.mapping.category = "") then jsIndexOfList st.headers st.mapping.category else -1
    { st with
      parsedRows := p1_processRows fb dIdx deIdx aIdx cIdx st.csvData
      step := Step.preview }

/-! ### Statement-text ingestor (`parseGenericStatementPDF`, `server/routes.ts`)

The amount-token regex `/\$?([-]?\d{1,3}(?:,\d{3})*\.?\d{0,2})(?:\s|$)/g` is
embedded as a backtracking matcher that mirrors the JS engine's
preference order (greedy quantifiers, leftmost match, global scan
resuming at the end of each match). -/

/-- First `some` among the results of `f` on the candidates, tried in
order — the regex engine's backtracking preference. -/
def tryEach (f : Nat → Option Nat) : List Nat → Option Nat
  | [] => none
  | n :: rest =>
      match f n with
      | some r => some r
      | none => tryEach f rest

/-- Candidate lengths `k, k-1, ..., lo` (greedy: longest first). -/
def greedyLens (k lo : Nat) : List Nat :=
  (List.range (k + 1 - lo)).map (fun i => k - i)

/-- Number of leading decimal digits. -/
def leadingDigits (cs : List Char) : Nat :=
  (cs.takeWhile Char.isDigit).length

/-- Tail `(?:\s|$)` of the amount regex: one whitespace character, or
end of input. -/
def amtTail (cs : List Char) : Option Nat :=
  match cs with
  | [] => some 0
  | c :: _ => if isJsSpace c then some 1 else none

/-- `\d{0,2}` (greedy) followed by the tail. -/
def amtFrac (cs : List Char) : Option Nat :=
  tryEach (fun n => (amtTail (cs.drop n)).map (· + n))
    (greedyLens (min 2 (leadingDigits cs)) 0)

/-- `\.?` — prefer consuming a dot, backtracking to not consuming it. -/
def amtDot (cs : List Char) : Option Nat :=
  match cs with
  | '.' :: rest =>
      match (amtFrac rest).map (· + 1) with
      | some r => some r
      | none => amtFrac cs
  | _ => amtFrac cs

/-- Maximal number of consecutive `,\d{3}` groups. -/
def maxGroups : List Char → Nat
  | ',' :: a :: b :: c :: rest =>
      if a.isDigit && b.isDigit && c.isDigit then maxGroups rest + 1 else 0
  | _ => 0

/-- `(?:,\d{3})*` (greedy, backtracking group count) followed by the dot
part. -/
def amtGroups (cs : List Char) : Option Nat :=
  tryEach (fun g => (amtDot (cs.drop (4 * g))).map (· + 4 * g))
    (greedyLens (maxGroups cs) 0)

/-- `\d{1,3}` (greedy) followed by the group part. -/
def amtDigits (cs : List Char) : Option Nat :=
  match min 3 (leadingDigits cs) with
  | 0 => none
  | k => tryEach (fun n => (amtGroups (cs.drop n)).map (· + n)) (greedyLens k 1)

/-- Whole amount-token regex at one position: length of `match[0]` if it
matches here.  `\$?` and `[-]?` are consumed deterministically: skipping
a present `$`/`-` cannot lead to a match, since `\d{1,3}` then starts on
that very character. -/
def matchAmountAt (cs : List Char) : Option Nat :=
  match cs with
  | '$' :: '-' :: rest => (amtDigits rest).map (· + 2)
  | '$' :: rest => (amtDigits rest).map (· + 1)
  | '-' :: rest => (amtDigits rest).map (· + 1)
  | _ => amtDigits cs

/-- Global scan of `String.prototype.match(..../g)`: all matches left to
right, resuming after each match (advancing one position after an empty
match, which this pattern cannot in fact produce).  `fuel` bounds the
recursion; callers pass `length + 1`, which is never exhausted since
every step consumes at least one character. -/
def jsMatchAllGo (fuel : Nat) (cs : List Char) : List String :=
  match fuel with
  | 0 => []
  | fuel + 1 =>
      match matchAmountAt cs with
      | some n => (⟨cs.take n⟩ : String) :: jsMatchAllGo fuel (cs.drop (max n 1))
      | none =>
          match cs with
          | [] => []
          | _ :: t => jsMatchAllGo fuel t

/-- `trimmed.match(/\$?([-]?\d{1,3}(?:,\d{3})*\.?\d{0,2})(?:\s|$)/g)` as a
list of the full match strings (JS returns `null` when there is no
match; the code only tests emptiness, so the empty list models that). -/
def jsMatchAllAmount (s : String) : List String :=
  jsMatchAllGo (s.data.length + 1) s.data

/-- Start positions (ascending) of the occurrences of `sub` in `cs`. -/
def occurrencesOf (cs sub : List Char) : List Nat :=
  (List.range (cs.length + 1)).filter (fun i => sub.isPrefixOf (cs.drop i))

/-- JS `String.prototype.indexOf`. -/
def jsIndexOfSub (s sub : String) : Int :=
  match occurrencesOf s.data sub.data with
  | [] => -1
  | i :: _ => (i : Int)

/-- JS `String.prototype.lastIndexOf`. -/
def jsLastIndexOfSub (s sub : String) : Int :=
  match (occurrencesOf s.data sub.data).getLast? with
  | none => -1
  | some i => (i : Int)

/-- JS `String.prototype.substring`: clamp both arguments to
`[0, length]` and swap them when start exceeds end. -/
def jsSubstring (s : String) (a b : Int) : String :=
  let len : Int := (s.data.length : Int)
  let a' := (max 0 (min a len)).toNat
  let b' := (max 0 (min b len)).toNat
  ⟨(s.data.drop (min a' b')).take (max a' b' - min a' b')⟩

/-- Date pattern `/^(\d{2}\/\d{2}\/\d{4})/`. -/
def rDateMDYSlash : List Char → Option (List Char)
  | a :: b :: '/' :: c :: d :: '/' :: e :: f :: g :: h :: _ =>
      if a.isDigit && b.isDigit && c.isDigit && d.isDigit &&
         e.isDigit && f.isDigit && g.isDigit && h.isDigit
      then some [a, b, '/', c, d, '/', e, f, g, h] else none
  | _ => none

/-- Date pattern `/^(\d{4}-\d{2}-\d{2})/`. -/
def rDateISO : List Char → Option (List Char)
  | a :: b :: c :: d :: '-' :: e :: f :: '-' :: g :: h :: _ =>
      if a.isDigit && b.isDigit && c.isDigit && d.isDigit &&
         e.isDigit && f.isDigit && g.isDigit && h.isDigit
      then some [a, b, c, d, '-', e, f, '-', g, h] else none
  | _ => none

/-- Date pattern `/^(\d{2}-\d{2}-\d{4})/`. -/
def rDateMDYDash : List Char → Option (List Char)
  | a :: b :: '-' :: c :: d :: '-' :: e :: f :: g :: h :: _ =>
      if a.isDigit && b.isDigit && c.isDigit && d.isDigit &&
         e.isDigit && f.isDigit && g.isDigit && h.isDigit
      then some [a, b, '-', c, d, '-', e, f, g, h] else none
  | _ => none

/-- The `for (const pattern of datePatterns)` loop: first matching
pattern wins, and the loop `break`s after processing it. -/
def routeDateMatch (cs : List Char) : Option (List Char) :=
  match rDateMDYSlash cs with
  | some r => some r
  | none =>
      match rDateISO cs with
      | some r => some r
      | none => rDateMDYDash cs

/-- Split on a separator character (JS `String.prototype.split`). -/
def splitOnChar (sep : Char) : List Char → List (List Char)
  | [] => [[]]
  | c :: rest =>
      let r := splitOnChar sep rest
      if c = sep then [] :: r
      else
        match r with
        | h :: t => (c :: h) :: t
        | [] => [[c]]

/-- Exact-match test for `/^\d{2}-\d{2}-\d{4}$/`. -/
def isMDYDashExact : List Char → Bool
  | [a, b, '-', c, d, '-', e, f, g, h] =>
      a.isDigit && b.isDigit && c.isDigit && d.isDigit &&
      e.isDigit && f.isDigit && g.isDigit && h.isDigit
  | _ => false

/-- Date reformatting inside `parseGenericStatementPDF`: `/`-separated
dates and exact `MM-DD-YYYY` dates are rearranged to `YYYY-MM-DD`
(month/day zero-padded); anything else is passed through. -/
def routeFormatDate (dateStr : List Char) : List Char :=
  if dateStr.contains '/' then
    let parts := splitOnChar '/' dateStr
    let month := (parts.get? 0).getD []
    let day := (parts.get? 1).getD []
    let year := (parts.get? 2).getD []
    year ++ '-' :: pad2 month ++ '-' :: pad2 day
  else if isMDYDashExact dateStr then
    let parts := splitOnChar '-' dateStr
    let month := (parts.get? 0).getD []
    let day := (parts.get? 1).getD []
    let year := (parts.get? 2).getD []
    year ++ '-' :: pad2 month ++ '-' :: pad2 day
  else dateStr

/-- `description.replace(/^\d+\s+/, "")`: strip a leading digit run
followed by whitespace (both maximal, both required). -/
def stripAuthCode (cs : List Char) : List Char :=
  let d := (cs.takeWhile Char.isDigit).length
  if d = 0 then cs
  else
    let w := (((cs.drop d).takeWhile isJsSpace)).length
    if w = 0 then cs else cs.drop (d + w)

/-- Character class of `replace(/[$,\s]/g, "")`. -/
def isAmtJunk (c : Char) : Bool :=
  c = '$' || c = ',' || isJsSpace c

/-- A transaction extracted from statement text
(`ParsedPDFTransaction`). -/
structure ParsedPDFTransaction where
  date : String
  description : String
  amount : Rat
  authCode : Option String
deriving DecidableEq, Repr

/-- The body of `parseGenericStatementPDF`'s per-line loop
(`server/routes.ts` lines 67–127): trim the line, find a date prefix,
collect the amount-token matches over the whole trimmed line, take the
first as the amount, cut the description between the end of the date and
the last occurrence of the last match, strip an auth-code prefix, and
keep the line only when the description is non-empty and the amount is a
number. -/
def processGenericLine (line : String) : Option ParsedPDFTransaction :=
  let trimmed := jsTrim line
  match routeDateMatch trimmed.data with
  | none => none
  | some dm =>
      let amountMatch := jsMatchAllAmount trimmed
      if amountMatch.isEmpty then none
      else
        let dateStr : String := ⟨dm⟩
        let formattedDate : String := ⟨routeFormatDate dm⟩
        let amountStr : String := ⟨(amountMatch.head?.getD "").data.filter (fun c => !isAmtJunk c)⟩
        let amount := jsParseFloat amountStr
        let dateEndIdx := jsIndexOfSub trimmed dateStr + (dateStr.data.length : Int)
        let amountStartIdx := jsLastIndexOfSub trimmed (amountMatch.getLast?.getD "")
        let description : String :=
          jsTrim ⟨stripAuthCode (jsTrim (jsSubstring trimmed dateEndIdx amountStartIdx)).data⟩
        match amount with
        | some a =>
            if !(description = "") then
              some { date := formattedDate, description := description, amount := a,
                     authCode := none }
            else none
        | none => none

/-- `parseGenericStatementPDF`: split the text on newlines and apply the
per-line extraction, collecting the successes in order. -/
def parseGenericStatementPDF (text : String) : List ParsedPDFTransaction :=
  ((splitOnChar '\n' text.data).map (fun l => processGenericLine ⟨l⟩)).reduceOption

/-! ### Reconciliation writer (`SupabaseStorage.createTransaction`,
`/api/transactions/bulk`)

Account balances and amounts travel as decimal strings through the
store; we model a stored balance by the exact rational it denotes, with
an inner `Option` for the `NaN` that JS `parseFloat` propagation can
produce (a `NaN` balance is stored as the string `"NaN"` and stays
`NaN`). -/

/-- `Number.prototype.toFixed(2)` read back with `parseFloat`: round to
the nearest multiple of `1/100`, ties away from zero (the ECMA spec
picks the larger candidate for `|x|`, and the sign is split off
first). -/
def round2 (q : Rat) : Rat :=
  if q < 0 then -(Rat.divInt ⌊(-q) * 100 + 1 / 2⌋ 100)
  else Rat.divInt ⌊q * 100 + 1 / 2⌋ 100

/-- `InsertTransaction` as submitted to `createTransaction` (the bulk
route passes the client rows through unchanged; `amount` is a decimal
string). -/
structure InsertTransaction where
  account_id : Nat
  description : String
  amount : String
  category : String
  subcategory : String
  date : String
deriving DecidableEq, Repr

/-- The slice of the persistent store the reconciliation writer touches:
per-account balances (`none` = no such account; inner `none` = stored
`NaN`) and the transaction table in insertion order. -/
structure Store where
  balances : Nat → Option (Option Rat)
  ledger : List InsertTransaction

/-- `NaN`-propagating addition of two parsed balances. -/
def jsAddNaN : Option Rat → Option Rat → Option Rat
  | some x, some y => some (x + y)
  | _, _ => none

/-- `SupabaseStorage.createTransaction` (`server/storage.ts` lines
229–247): insert the row, then — when the owning account exists — write
back `(parseFloat(balance) + parseFloat(amount)).toFixed(2)` as the new
balance.  The insert and the balance write are separate awaited store
operations; this function is their sequential (single-client)
composition. -/
def createTransaction (st : Store) (tx : InsertTransaction) : Store :=
  let st1 : Store := { st with ledger := st.ledger ++ [tx] }
  match st1.balances tx.account_id with
  | some bal =>
      let newBalance := (jsAddNaN bal (jsParseFloat tx.amount)).map round2
      { st1 with balances := fun k => if k = tx.account_id then some newBalance else st1.balances k }
  | none => st1

/-- The row loop of the `/api/transactions/bulk` route: `fails i` is the
outcome of the awaited `storage.createTransaction` call for row `i`
(`some msg` = the call throws with message `msg`, modelled with no store
effect; `none` = it succeeds with its full effect).  Returns the final
store, the `imported` list length and the `errors` list. -/
def bulkGo (fails : Nat → Option String) (st : Store) (i : Nat) :
    List InsertTransaction → Store × Nat × List (Nat × String)
  | [] => (st, 0, [])
  | tx :: rest =>
      match fails i with
      | some msg =>
          let r := bulkGo fails st (i + 1) rest
          (r.1, r.2.1, (i, msg) :: r.2.2)
      | none =>
          let r := bulkGo fails (createTransaction st tx) (i + 1) rest
          (r.1, r.2.1 + 1, r.2.2)

/-- `POST /api/transactions/bulk` (`server/routes.ts` lines 386–417):
refuse an empty (or non-array) payload with a 400 error; otherwise run
the row loop from index 0 and report `imported` and `errors` counts plus
the error details. -/
def bulkRoute (fails : Nat → Option String) (st : Store) (txs : List InsertTransaction) :
    Except String (Store × Nat × Nat × List (Nat × String)) :=
  if txs.isEmpty then Except.error "No transactions provided"
  else
    let r := bulkGo fails st 0 txs
    Except.ok (r.1, r.2.1, r.2.2.length, r.2.2)

/-- One in-flight `createTransaction` balance update, split at its two
awaited store operations: `getAccount` (read the balance) and
`updateAccount` (write `toFixed(2)` of read value + amount).  Nothing in
`storage.ts` serialises the two phases against other clients. -/
structure RMW where
  amt : Rat
  readBal : Option Rat
  finished : Bool
deriving DecidableEq, Repr

/-- Execute one phase of thread `t` against the shared balance. -/
def stepThread (bal : Rat) (t : RMW) : Rat × RMW :=
  if t.finished then (bal, t)
  else
    match t.readBal with
    | none => (bal, { t with readBal := some bal })
    | some b => (round2 (b + t.amt), { t with finished := true })

/-- Run a schedule (a list of thread indices) of interleaved
`createTransaction` balance updates against one account; out-of-range
indices are skipped. -/
def runSched (bal : Rat) (ts : List RMW) : List Nat → Rat
  | [] => bal
  | i :: rest =>
      match ts.get? i with
      | none => runSched bal ts rest
      | some t =>
          let p := stepThread bal t
          runSched p.1 (ts.set i p.2) rest

/-! ## Theorems -/

/-- Rebuilding a string from its character list is the identity. -/
theorem string_mk_data (s : String) : (⟨s.data⟩ : String) = s := by
  cases s
  rfl

/-- Claim C1 — counterexample.  The claim states that `parseAmount`
returns failure (`null`) for the empty string; the `part_001` copy
instead returns the number `0` for the empty string. -/
theorem C1_empty_amount_counterexample :
    ¬ p1_parseAmount (some "") = none ∧ p1_parseAmount (some "") = some 0 := by
  decide

/-- Claim C1 — amended.  An absent (`null`/`undefined`) input yields
failure (`null`) in both `parseAmount` copies, and the empty string
yields failure in the `csv-import-dialog.tsx` copy; but in the
`part_001` copy the empty string yields the number `0` (it is grouped
with the explicit zero literals `"0"` and `"0.0"`). -/
theorem C1_empty_absent_amounts :
    dlg_parseAmount none = none ∧ dlg_parseAmount (some "") = none ∧
    p1_parseAmount none = none ∧ p1_parseAmount (some "") = some 0 ∧
    p1_parseAmount (some "0") = some 0 ∧ p1_parseAmount (some "0.0") = some 0 := by
  decide

/-- Claim C2.  On the spec's example line the generic statement-text
fallback does *not* return amount `45.99` and description
`"AMAZON.COM MARKETPLACE"`: the amount-token regex is run over the whole
trimmed line, so its first match is the year `"2026 "` inside the date
itself, which becomes the transaction amount, and the description keeps
the real amount `45.99` (the text up to the last match `"1,204.33"`).
The conjuncts exhibit the global match list and the divergence from the
claimed output. -/
theorem C2_generic_line_divergence :
    parseGenericStatementPDF "01/08/2026 4721 AMAZON.COM MARKETPLACE 45.99 1,204.33"
      = [{ date := "2026-01-08", description := "AMAZON.COM MARKETPLACE 45.99",
           amount := 2026, authCode := none }] ∧
    jsMatchAllAmount "01/08/2026 4721 AMAZON.COM MARKETPLACE 45.99 1,204.33"
      = ["2026 ", "4721 ", "45.99 ", "1,204.33"] ∧
    ¬ (2026 : Rat) = Rat.divInt 4599 100 ∧
    ¬ ("AMAZON.COM MARKETPLACE 45.99" : String) = "AMAZON.COM MARKETPLACE" := by
  decide

/-- Claim C7.  When a required column mapping (date, description or
amount) or the target account selection is missing, `part_001`'s
`handleMappingComplete` returns with the dialog state unchanged: no
candidate rows are produced and the wizard does not advance. -/
theorem C7_missing_mapping_refuses_batch (fb : String → Option String) (st : DialogState)
    (h : st.mapping.date = "" ∨ st.mapping.description = "" ∨ st.mapping.amount = "" ∨
         st.selectedAccountId = "") :
    p1_handleMappingComplete fb st = st := by
  unfold p1_handleMappingComplete
  rcases h with h | h | h | h <;> simp [h]

/-- Claim C7 — witness at a concrete state with an unassigned date
column. -/
theorem C7_missing_mapping_witness :
    p1_handleMappingComplete (fun _ => none)
      { headers := ["Date", "Desc", "Amt"], csvData := [["1/2/2026", "x", "5"]],
        mapping := { date := "", description := "Desc", amount := "Amt", category := "" },
        selectedAccountId := "7", parsedRows := [], step := Step.mapping }
      = { headers := ["Date", "Desc", "Amt"], csvData := [["1/2/2026", "x", "5"]],
          mapping := { date := "", description := "Desc", amount := "Amt", category := "" },
          selectedAccountId := "7", parsedRows := [], step := Step.mapping } :=
  C7_missing_mapping_refuses_batch (fun _ => none) _ (Or.inl rfl)

/-- Claim C9.  The balance update in `createTransaction` is an
unserialised read-modify-write (`getAccount` then `updateAccount`, with
no lock, version check or queue), so two concurrent one-row commits
against the same account can lose an update.  For initial balance 143.20
and amounts −12.50 and +1.00: the interleaving read/read/write/write
ends at 144.20, whereas any serial order (and the claimed property)
gives 143.20 − 12.50 + 1.00 = 131.70. -/
theorem C9_lost_update :
    runSched (Rat.divInt 1432 10)
        [{ amt := Rat.divInt (-125) 10, readBal := none, finished := false },
         { amt := 1, readBal := none, finished := false }] [0, 1, 0, 1]
      = Rat.divInt 1442 10 ∧
    runSched (Rat.divInt 1432 10)
        [{ amt := Rat.divInt (-125) 10, readBal := none, finished := false },
         { amt := 1, readBal := none, finished := false }] [0, 0, 1, 1]
      = Rat.divInt 1317 10 ∧
    Rat.divInt 1432 10 + (Rat.divInt (-125) 10 + 1) = Rat.divInt 1317 10 ∧
    ¬ Rat.divInt 1442 10 = Rat.divInt 1317 10 := by
  refine ⟨?_, ?_, ?_, ?_⟩ <;>
    norm_num [runSched, stepThread, round2, Rat.divInt_eq_div]

/-- Claim C10.  `parseDate` (both copies) performs no range validation
in its `MM/DD/YYYY` branch: `"13/45/2026"` is accepted and reformatted
to the `YYYY-MM-DD`-shaped string `"2026-13-45"`, which is not a real
calendar date, and a row carrying it (with valid description and
amount) is marked valid by the row mapper. -/
theorem C10_no_range_validation :
    (∀ fb, p1_parseDate fb "13/45/2026" = some "2026-13-45") ∧
    (∀ fb, dlg_parseDate fb "13/45/2026" = some "2026-13-45") ∧
    isoShaped "2026-13-45" = true ∧
    isoRealDate "2026-13-45" = false ∧
    (∀ fb, (mapRowWith (p1_parseDate fb) p1_parseAmount 0 1 2 (-1)
        ["13/45/2026", "Groceries", "12.34"]).isValid = true) ∧
    (∀ fb, (mapRowWith (p1_parseDate fb) p1_parseAmount 0 1 2 (-1)
        ["13/45/2026", "Groceries", "12.34"]).date = "2026-13-45") := by
  exact ⟨fun _ => rfl, fun _ => rfl, by decide, by decide, fun _ => rfl, fun _ => rfl⟩

/-- Claim C3.  Among the candidates produced by `part_001`'s row
mapper, a zero-amount row that is otherwise valid is dropped by the
post-filter, while a zero-amount row that is invalid for another reason
is retained (with its fields, in particular its invalid status,
untouched); rows with non-zero amounts are always retained. -/
theorem C3_zero_amount_filter (fb : String → Option String) (di de am ci : Int)
    (rows : List (List String)) :
    ∀ r ∈ rows.map (mapRowWith (p1_parseDate fb) p1_parseAmount di de am ci),
      (r.amount = 0 ∧ r.isValid = true → r ∉ p1_processRows fb di de am ci rows) ∧
      (r.amount = 0 ∧ r.isValid = false → r ∈ p1_processRows fb di de am ci rows) ∧
      (¬ r.amount = 0 → r ∈ p1_processRows fb di de am ci rows) := by
  intro r hr
  unfold p1_processRows
  refine ⟨?_, ?_, ?_⟩
  · rintro ⟨h0, hv⟩ hmem
    rcases List.mem_filter.mp hmem with ⟨-, hp⟩
    simp [h0, hv] at hp
  · rintro ⟨h0, hv⟩
    exact List.mem_filter.mpr ⟨hr, by simp [h0, hv]⟩
  · intro h0
    exact List.mem_filter.mpr ⟨hr, by simp [h0]⟩

/-- Claim C3 — witness: a valid zero-amount row (an authorization hold)
is dropped, while an invalid zero-amount row (bad date) from the same
upload is retained. -/
theorem C3_zero_amount_filter_witness :
    mapRowWith (p1_parseDate (fun _ => none)) p1_parseAmount 0 1 2 (-1)
        ["2026-01-07", "Hold", "0"]
      ∉ p1_processRows (fun _ => none) 0 1 2 (-1)
          [["2026-01-07", "Hold", "0"], ["notadate", "Bad", "0"]] ∧
    mapRowWith (p1_parseDate (fun _ => none)) p1_parseAmount 0 1 2 (-1)
        ["notadate", "Bad", "0"]
      ∈ p1_processRows (fun _ => none) 0 1 2 (-1)
          [["2026-01-07", "Hold", "0"], ["notadate", "Bad", "0"]] :=
  ⟨(C3_zero_amount_filter (fun _ => none) 0 1 2 (-1)
      [["2026-01-07", "Hold", "0"], ["notadate", "Bad", "0"]] _ (by decide)).1 (by decide),
   (C3_zero_amount_filter (fun _ => none) 0 1 2 (-1)
      [["2026-01-07", "Hold", "0"], ["notadate", "Bad", "0"]] _ (by decide)).2.1 (by decide)⟩

/-- Balance effect of one `createTransaction` call on an existing
account with a numeric stored balance and a parseable amount string. -/
theorem createTransaction_balances (st : Store) (tx : InsertTransaction) (b a : Rat)
    (hb : st.balances tx.account_id = some (some b))
    (ha : jsParseFloat tx.amount = some a) :
    (createTransaction st tx).balances tx.account_id = some (some (round2 (b + a))) ∧
    (createTransaction st tx).ledger = st.ledger ++ [tx] := by
  unfold createTransaction
  simp [hb, ha, jsAddNaN]

/-- Claim C5.  For a transaction persisted against an existing account,
the new balance is the old balance plus the signed amount, rounded to
two decimal places; a batch of N rows against the same account performs
the N rounded additions sequentially (a left fold), and this genuinely
differs from applying one aggregate rounded delta (third conjunct:
two +0.005 rows end at 0.02 sequentially but at 0.01 as an aggregate). -/
theorem C5_balance_read_modify_write :
    (∀ (st : Store) (tx : InsertTransaction) (b a : Rat),
      st.balances tx.account_id = some (some b) → jsParseFloat tx.amount = some a →
      (createTransaction st tx).balances tx.account_id = some (some (round2 (b + a))) ∧
      (createTransaction st tx).ledger = st.ledger ++ [tx]) ∧
    (∀ (st : Store) (k : Nat) (b : Rat) (txs : List InsertTransaction) (amts : List Rat),
      st.balances k = some (some b) →
      List.Forall₂ (fun tx aa => tx.account_id = k ∧ jsParseFloat tx.amount = some aa) txs amts →
      (txs.foldl createTransaction st).balances k
        = some (some (amts.foldl (fun bb aa => round2 (bb + aa)) b))) ∧
    ¬ [Rat.divInt 1 200, Rat.divInt 1 200].foldl (fun bb aa => round2 (bb + aa)) 0
        = round2 (0 + ([Rat.divInt 1 200, Rat.divInt 1 200]).sum) := by
  refine ⟨fun st tx b a hb ha => createTransaction_balances st tx b a hb ha, ?_, ?_⟩
  · intro st k b txs amts hb hrel
    induction hrel generalizing st b with
    | nil => simpa using hb
    | cons hhead htail ih =>
        rename_i tx aa txs2 amts2
        obtain ⟨hacc, hamt⟩ := hhead
        have h1 := (createTransaction_balances st tx b aa (by rw [hacc]; exact hb) hamt).1
        rw [hacc] at h1
        simpa using ih (createTransaction st tx) (round2 (b + aa)) h1
  · norm_num [round2, Rat.divInt_eq_div, List.foldl]

/-- Claim C5 — witness: account 1 holds 100; committing a `"-4.50"`
transaction leaves `round2 (100 + (-4.50))`. -/
theorem C5_balance_witness :
    (createTransaction
        { balances := fun k => if k = 1 then some (some 100) else none, ledger := [] }
        { account_id := 1, description := "Coffee Shop", amount := "-4.50",
          category := "expense", subcategory := "Other", date := "2026-01-07" }).balances 1
      = some (some (round2 (100 + Rat.divInt (-450) 100))) :=
  (C5_balance_read_modify_write.1
    { balances := fun k => if k = 1 then some (some 100) else none, ledger := [] }
    { account_id := 1, description := "Coffee Shop", amount := "-4.50",
      category := "expense", subcategory := "Other", date := "2026-01-07" }
    100 (Rat.divInt (-450) 100) (by decide) (by decide)).1

/-- Row loop of the bulk route, characterised over the indexed rows:
the final store folds `createTransaction` over exactly the successful
rows, `imported` counts them, and the error list pairs each failing
row's index with its message — independent of where failures sit. -/
theorem bulkGo_spec (fails : Nat → Option String) (txs : List InsertTransaction) :
    ∀ (i : Nat) (st : Store),
      bulkGo fails st i txs =
        (((txs.enumFrom i).filter (fun p => (fails p.1).isNone)).foldl
            (fun s p => createTransaction s p.2) st,
         ((txs.enumFrom i).filter (fun p => (fails p.1).isNone)).length,
         (txs.enumFrom i).filterMap (fun p => (fails p.1).map (fun m => (p.1, m)))) := by
  induction txs with
  | nil => intro i st; simp [bulkGo]
  | cons tx rest ih =>
      intro i st
      cases hf : fails i with
      | some msg => simp [bulkGo, hf, ih (i + 1) st]
      | none => simp [bulkGo, hf, ih (i + 1) (createTransaction st tx)]

/-- Claim C6.  A non-empty batch is processed row by row in order; a
row's persistence failure does not abort the rest: the store receives
the fold of `createTransaction` over exactly the successful rows (in
order), `imported` is the number of successful rows, `errors` is the
number of failed rows, and each failure is recorded against its row
index with its message. -/
theorem C6_bulk_batch_independence (fails : Nat → Option String) (st : Store)
    (txs : List InsertTransaction) (h : ¬ txs = []) :
    bulkRoute fails st txs =
      Except.ok
        ((txs.enum.filter (fun p => (fails p.1).isNone)).foldl
            (fun s p => createTransaction s p.2) st,
         (txs.enum.filter (fun p => (fails p.1).isNone)).length,
         (txs.enum.filterMap (fun p => (fails p.1).map (fun m => (p.1, m)))).length,
         txs.enum.filterMap (fun p => (fails p.1).map (fun m => (p.1, m)))) := by
  have hne : txs.isEmpty = false := by
    cases txs with
    | nil => exact absurd rfl h
    | cons a l => rfl
  unfold bulkRoute
  rw [hne]
  simp only [Bool.false_eq_true, if_false, bulkGo_spec fails txs 0 st]
  rfl

/-- Claim C6 — witness: three rows with the middle one failing: the
result is `ok` with 2 imported, 1 error, and the error recorded against
index 1; the store folds over rows 0 and 2 only. -/
theorem C6_bulk_witness :
    bulkRoute (fun i => if i = 1 then some "db error" else none)
      { balances := fun _ => none, ledger := [] }
      [{ account_id := 1, description := "a", amount := "1.00", category := "expense",
         subcategory := "Other", date := "2026-01-01" },
       { account_id := 1, description := "b", amount := "2.00", category := "expense",
         subcategory := "Other", date := "2026-01-02" },
       { account_id := 1, description := "c", amount := "3.00", category := "expense",
         subcategory := "Other", date := "2026-01-03" }] =
      Except.ok
        (([((0 : Nat), ({ account_id := 1, description := "a", amount := "1.00",
                          category := "expense", subcategory := "Other",
                          date := "2026-01-01" } : InsertTransaction)),
           (2, { account_id := 1, description := "c", amount := "3.00",
                 category := "expense", subcategory := "Other",
                 date := "2026-01-03" })]).foldl (fun s p => createTransaction s p.2)
            { balances := fun _ => none, ledger := [] },
         2, 1, [(1, "db error")]) :=
  C6_bulk_batch_independence (fun i => if i = 1 then some "db error" else none)
    { balances := fun _ => none, ledger := [] } _ (by decide)

/-- A string whose character list ends in an appended cons cell is
never empty. -/
theorem mk_around_dash_ne_empty (xs : List Char) (c : Char) (rest : List Char) :
    ¬ ((⟨xs ++ c :: rest⟩ : String) = "") := by
  intro e
  have h := congrArg String.data e
  simp at h

/-- `p1_parseDate` never returns the empty string (given that the
`Date`-constructor fallback does not — JS `toISOString` output never
is). -/
theorem p1_parseDate_ne_empty (fb : String → Option String)
    (hfb : ∀ t u, fb t = some u → ¬ u = "") (s d : String)
    (h : p1_parseDate fb s = some d) : ¬ d = "" := by
  unfold p1_parseDate at h
  by_cases hs : s = ""
  · rw [if_pos hs] at h
    exact absurd h (by simp)
  · rw [if_neg hs] at h
    cases h1 : p1_isoDateTimeMatch s.data with
    | some r =>
        obtain ⟨y, m, dd⟩ := r
        rw [h1] at h
        simp only [Option.some.injEq] at h
        rw [← h]
        exact mk_around_dash_ne_empty _ _ _
    | none =>
        rw [h1] at h
        cases h2 : p1_isoMatch s.data with
        | some r =>
            obtain ⟨y, m, dd⟩ := r
            rw [h2] at h
            simp only [Option.some.injEq] at h
            rw [← h]
            exact mk_around_dash_ne_empty _ _ _
        | none =>
            rw [h2] at h
            cases h3 : p1_mdyMatch s.data with
            | some r =>
                obtain ⟨m, dd, y⟩ := r
                rw [h3] at h
                simp only [Option.some.injEq] at h
                rw [← h]
                exact mk_around_dash_ne_empty _ _ _
            | none =>
                rw [h3] at h
                exact hfb s d h

/-- `dlg_parseDate` never returns the empty string (same caveat on the
fallback). -/
theorem dlg_parseDate_ne_empty (fb : String → Option String)
    (hfb : ∀ t u, fb t = some u → ¬ u = "") (s d : String)
    (h : dlg_parseDate fb s = some d) : ¬ d = "" := by
  unfold dlg_parseDate at h
  by_cases hs : s = ""
  · rw [if_pos hs] at h
    exact absurd h (by simp)
  · rw [if_neg hs] at h
    cases h1 : dlg_isoMatch s.data with
    | some r =>
        obtain ⟨y, m, dd⟩ := r
        rw [h1] at h
        simp only [Option.some.injEq] at h
        rw [← h]
        exact mk_around_dash_ne_empty _ _ _
    | none =>
        rw [h1] at h
        cases h2 : dlg_mdyMatch s.data with
        | some r =>
            obtain ⟨m, dd, y⟩ := r
            rw [h2] at h
            simp only [Option.some.injEq] at h
            rw [← h]
            exact mk_around_dash_ne_empty _ _ _
        | none =>
            rw [h2] at h
            exact hfb s d h

/-- For a date normaliser that never returns `""`, JS falsiness of its
result is exactly failure. -/
theorem jsFalsyStr_eq_not_isSome (pd : String → Option String)
    (hpd : ∀ s d, pd s = some d → ¬ d = "") (x : String) :
    jsFalsyStr (pd x) = !(pd x).isSome := by
  cases h : pd x with
  | none => rfl
  | some d => simp [jsFalsyStr, hpd x d h]

/-- Validity invariant of the row mapper, for any field normalisers
whose date normaliser never returns the empty string. -/
theorem rowValidity (pd : String → Option String) (pa : Option String → Option Rat)
    (hpd : ∀ s d, pd s = some d → ¬ d = "") (di de am ci : Int) (row : List String) :
    ((mapRowWith pd pa di de am ci row).isValid = true ↔
      rowErrorsWith pd pa di de am row = []) ∧
    ((mapRowWith pd pa di de am ci row).isValid = true ↔
      ((pd (jsCell row di)).isSome = true ∧ ¬ jsCell row de = "" ∧
       (pa (some (jsCell row am))).isSome = true)) ∧
    rowErrorsWith pd pa di de am row =
      (if (pd (jsCell row di)).isSome then [] else ["Invalid date"]) ++
      (if jsCell row de = "" then ["Missing description"] else []) ++
      (if (pa (some (jsCell row am))).isSome then [] else ["Invalid amount"]) := by
  have herr : rowErrorsWith pd pa di de am row =
      (if (pd (jsCell row di)).isSome then [] else ["Invalid date"]) ++
      (if jsCell row de = "" then ["Missing description"] else []) ++
      (if (pa (some (jsCell row am))).isSome then [] else ["Invalid amount"]) := by
    simp only [rowErrorsWith]
    rw [jsFalsyStr_eq_not_isSome pd hpd]
    cases hq : (pd (jsCell row di)).isSome <;>
      cases hp : pa (some (jsCell row am)) <;> simp
  have hval : (mapRowWith pd pa di de am ci row).isValid
      = decide (List.length (rowErrorsWith pd pa di de am row) = 0) := rfl
  refine ⟨?_, ?_, herr⟩
  · rw [hval]
    simp [List.length_eq_zero]
  · rw [hval, herr]
    cases hq : (pd (jsCell row di)).isSome <;>
      cases hp : (pa (some (jsCell row am))).isSome <;>
        by_cases hd : jsCell row de = "" <;> simp [hq, hp, hd]

/-- Claim C4.  For every mapped data row (in either dialog copy, over
the JS `Date` fallback as long as it never yields the empty string —
`toISOString` output never is): the candidate's validity flag is true
iff its failure-reason list is empty, iff date normalisation succeeded,
the trimmed description is non-empty and amount normalisation
succeeded; and each failing field contributes exactly its reason string
("Invalid date", "Missing description", "Invalid amount"), in that
order. -/
theorem C4_validity_iff_no_errors :
    (∀ (fb : String → Option String), (∀ t u, fb t = some u → ¬ u = "") →
      ∀ (di de am ci : Int) (row : List String),
        ((mapRowWith (p1_parseDate fb) p1_parseAmount di de am ci row).isValid = true ↔
          rowErrorsWith (p1_parseDate fb) p1_parseAmount di de am row = []) ∧
        ((mapRowWith (p1_parseDate fb) p1_parseAmount di de am ci row).isValid = true ↔
          ((p1_parseDate fb (jsCell row di)).isSome = true ∧ ¬ jsCell row de = "" ∧
           (p1_parseAmount (some (jsCell row am))).isSome = true)) ∧
        rowErrorsWith (p1_parseDate fb) p1_parseAmount di de am row =
          (if (p1_parseDate fb (jsCell row di)).isSome then [] else ["Invalid date"]) ++
          (if jsCell row de = "" then ["Missing description"] else []) ++
          (if (p1_parseAmount (some (jsCell row am))).isSome then [] else ["Invalid amount"])) ∧
    (∀ (fb : String → Option String), (∀ t u, fb t = some u → ¬ u = "") →
      ∀ (di de am ci : Int) (row : List String),
        ((mapRowWith (dlg_parseDate fb) dlg_parseAmount di de am ci row).isValid = true ↔
          rowErrorsWith (dlg_parseDate fb) dlg_parseAmount di de am row = []) ∧
        ((mapRowWith (dlg_parseDate fb) dlg_parseAmount di de am ci row).isValid = true ↔
          ((dlg_parseDate fb (jsCell row di)).isSome = true ∧ ¬ jsCell row de = "" ∧
           (dlg_parseAmount (some (jsCell row am))).isSome = true)) ∧
        rowErrorsWith (dlg_parseDate fb) dlg_parseAmount di de am row =
          (if (dlg_parseDate fb (jsCell row di)).isSome then [] else ["Invalid date"]) ++
          (if jsCell row de = "" then ["Missing description"] else []) ++
          (if (dlg_parseAmount (some (jsCell row am))).isSome then [] else ["Invalid amount"])) :=
  ⟨fun fb hfb => rowValidity (p1_parseDate fb) p1_parseAmount
      (p1_parseDate_ne_empty fb hfb),
   fun fb hfb => rowValidity (dlg_parseDate fb) dlg_parseAmount
      (dlg_parseDate_ne_empty fb hfb)⟩

/-- Claim C4 — witness at a concrete valid row (fallback: never
succeeds, so vacuously never returns `""`). -/
theorem C4_validity_witness :
    (mapRowWith (p1_parseDate (fun _ => none)) p1_parseAmount 0 1 2 (-1)
        ["2026-01-07", "Coffee Shop", "-4.50"]).isValid = true ↔
      rowErrorsWith (p1_parseDate (fun _ => none)) p1_parseAmount 0 1 2
        ["2026-01-07", "Coffee Shop", "-4.50"] = [] :=
  (C4_validity_iff_no_errors.1 (fun _ => none) (fun _ _ h => Option.noConfusion h)
    0 1 2 (-1) ["2026-01-07", "Coffee Shop", "-4.50"]).1

/-- Ten digit characters arranged as `YYYY-MM-DD` form an ISO-shaped
string. -/
theorem isoShaped_build (a b c d p q r s : Char)
    (h1 : a.isDigit = true) (h2 : b.isDigit = true) (h3 : c.isDigit = true)
    (h4 : d.isDigit = true) (h5 : p.isDigit = true) (h6 : q.isDigit = true)
    (h7 : r.isDigit = true) (h8 : s.isDigit = true) :
    isoShaped ⟨[a, b, c, d] ++ '-' :: [p, q] ++ '-' :: [r, s]⟩ = true := by
  simp [isoShaped, h1, h2, h3, h4, h5, h6, h7, h8]

/-- A one- or two-digit group zero-pads to exactly two digits. -/
theorem pad2_digits (m : List Char) (hlen : m.length = 1 ∨ m.length = 2)
    (hall : m.all Char.isDigit = true) :
    ∃ p q, pad2 m = [p, q] ∧ p.isDigit = true ∧ q.isDigit = true := by
  rcases m with _ | ⟨a, _ | ⟨b, t⟩⟩
  · simp at hlen
  · refine ⟨'0', a, by simp [pad2], by decide, ?_⟩
    simpa using hall
  · rcases hlen with hlen | hlen
    · simp at hlen
    · have ht : t = [] := by
        simpa using hlen
      subst ht
      refine ⟨a, b, by simp [pad2], ?_, ?_⟩ <;> simp_all

/-- Inversion for the `part_001` ISO date-time match: the output groups
are digit lists of lengths 4, 2, 2. -/
theorem p1_isoDateTimeMatch_some (cs : List Char) (y m d : List Char)
    (h : p1_isoDateTimeMatch cs = some (y, m, d)) :
    isoShaped ⟨y ++ '-' :: m ++ '-' :: d⟩ = true := by
  unfold p1_isoDateTimeMatch at h
  split at h
  · split at h
    · simp only [Option.some.injEq, Prod.mk.injEq] at h
      obtain ⟨hy, hm, hd⟩ := h
      subst hy; subst hm; subst hd
      simp_all [isoShaped]
    · exact absurd h (by simp)
  · exact absurd h (by simp)

/-- Inversion for the `part_001` exact ISO match. -/
theorem p1_isoMatch_some (cs : List Char) (y m d : List Char)
    (h : p1_isoMatch cs = some (y, m, d)) :
    isoShaped ⟨y ++ '-' :: m ++ '-' :: d⟩ = true := by
  unfold p1_isoMatch at h
  split at h
  · split at h
    · simp only [Option.some.injEq, Prod.mk.injEq] at h
      obtain ⟨hy, hm, hd⟩ := h
      subst hy; subst hm; subst hd
      simp_all [isoShaped]
    · exact absurd h (by simp)
  · exact absurd h (by simp)

/-- Inversion for the `part_001` year group. -/
theorem p1_mdyYear_some (cs y : List Char) (h : p1_mdyYear cs = some y) :
    ∃ a b c d, y = [a, b, c, d] ∧ a.isDigit = true ∧ b.isDigit = true ∧
      c.isDigit = true ∧ d.isDigit = true := by
  unfold p1_mdyYear at h
  split at h
  · split at h
    · simp only [Option.some.injEq] at h
      subst h
      rename_i h1
      simp only [Bool.and_eq_true] at h1
      exact ⟨_, _, _, _, rfl, h1.1.1.1, h1.1.1.2, h1.1.2, h1.2⟩
    · exact absurd h (by simp)
  · exact absurd h (by simp)

/-- Inversion for the `part_001` day-and-year part. -/
theorem p1_mdyDayYear_some (cs d y : List Char) (h : p1_mdyDayYear cs = some (d, y)) :
    ((d.length = 1 ∨ d.length = 2) ∧ d.all Char.isDigit = true) ∧
      ∃ a b c e, y = [a, b, c, e] ∧ a.isDigit = true ∧ b.isDigit = true ∧
        c.isDigit = true ∧ e.isDigit = true := by
  unfold p1_mdyDayYear at h
  split at h
  · split at h
    · rw [Option.map_eq_some'] at h
      obtain ⟨yy, hyy, hfy⟩ := h
      simp only [Prod.mk.injEq] at hfy
      obtain ⟨hd, hy⟩ := hfy
      subst hd; subst hy
      rename_i hcond
      simp only [Bool.and_eq_true] at hcond
      exact ⟨⟨Or.inr rfl, by simp [hcond.1, hcond.2]⟩, p1_mdyYear_some _ _ hyy⟩
    · exact absurd h (by simp)
  · split at h
    · rw [Option.map_eq_some'] at h
      obtain ⟨yy, hyy, hfy⟩ := h
      simp only [Prod.mk.injEq] at hfy
      obtain ⟨hd, hy⟩ := hfy
      subst hd; subst hy
      rename_i hcond
      exact ⟨⟨Or.inl rfl, by simp [hcond]⟩, p1_mdyYear_some _ _ hyy⟩
    · exact absurd h (by simp)
  · exact absurd h (by simp)

/-- The `part_001` `MM/DD/YYYY` branch always produces an ISO-shaped
output. -/
theorem p1_mdyMatch_some (cs : List Char) (m d y : List Char)
    (h : p1_mdyMatch cs = some (m, d, y)) :
    isoShaped ⟨y ++ '-' :: pad2 m ++ '-' :: pad2 d⟩ = true := by
  have main : ((m.length = 1 ∨ m.length = 2) ∧ m.all Char.isDigit = true) ∧
      ((d.length = 1 ∨ d.length = 2) ∧ d.all Char.isDigit = true) ∧
      ∃ a b c e, y = [a, b, c, e] ∧ a.isDigit = true ∧ b.isDigit = true ∧
        c.isDigit = true ∧ e.isDigit = true := by
    unfold p1_mdyMatch at h
    split at h
    · split at h
      · rw [Option.map_eq_some'] at h
        obtain ⟨⟨dd, yy⟩, hdy, hfy⟩ := h
        simp only [Prod.mk.injEq] at hfy
        obtain ⟨hm, hd2, hy⟩ := hfy
        subst hm; subst hd2; subst hy
        rename_i hcond
        simp only [Bool.and_eq_true] at hcond
        exact ⟨⟨Or.inr rfl, by simp [hcond.1, hcond.2]⟩, p1_mdyDayYear_some _ _ _ hdy⟩
      · exact absurd h (by simp)
    · split at h
      · rw [Option.map_eq_some'] at h
        obtain ⟨⟨dd, yy⟩, hdy, hfy⟩ := h
        simp only [Prod.mk.injEq] at hfy
        obtain ⟨hm, hd2, hy⟩ := hfy
        subst hm; subst hd2; subst hy
        rename_i hcond
        exact ⟨⟨Or.inl rfl, by simp [hcond]⟩, p1_mdyDayYear_some _ _ _ hdy⟩
      · exact absurd h (by simp)
    · exact absurd h (by simp)
  obtain ⟨⟨hml, hmd⟩, ⟨hdl, hdd⟩, a, b, c, e, hy, ha, hb, hc, he⟩ := main
  obtain ⟨p, q, hpq, hp, hq⟩ := pad2_digits m hml hmd
  obtain ⟨r, t, hrt, hr, ht⟩ := pad2_digits d hdl hdd
  rw [hy, hpq, hrt]
  exact isoShaped_build a b c e p q r t ha hb hc he hp hq hr ht

/-- Inversion for the dialog ISO prefix match. -/
theorem dlg_isoMatch_some (cs : List Char) (y m d : List Char)
    (h : dlg_isoMatch cs = some (y, m, d)) :
    isoShaped ⟨y ++ '-' :: m ++ '-' :: d⟩ = true := by
  unfold dlg_isoMatch at h
  split at h
  · split at h
    · simp only [Option.some.injEq, Prod.mk.injEq] at h
      obtain ⟨hy, hm, hd⟩ := h
      subst hy; subst hm; subst hd
      simp_all [isoShaped]
    · exact absurd h (by simp)
  · exact absurd h (by simp)

/-- Inversion for the dialog year group. -/
theorem dlg_mdyYear_some (cs y : List Char) (h : dlg_mdyYear cs = some y) :
    ∃ a b c d, y = [a, b, c, d] ∧ a.isDigit = true ∧ b.isDigit = true ∧
      c.isDigit = true ∧ d.isDigit = true := by
  unfold dlg_mdyYear at h
  split at h
  · split at h
    · simp only [Option.some.injEq] at h
      subst h
      rename_i h1
      simp only [Bool.and_eq_true] at h1
      exact ⟨_, _, _, _, rfl, h1.1.1.1, h1.1.1.2, h1.1.2, h1.2⟩
    · exact absurd h (by simp)
  · exact absurd h (by simp)

/-- One alternative of the dialog `M/D/YYYY` match always produces an
ISO-shaped output (for the group lengths the regex uses). -/
theorem dlg_mdyTry_some (lm ld : Nat) (cs m d y : List Char)
    (hlm : lm = 1 ∨ lm = 2) (hld : ld = 1 ∨ ld = 2)
    (h : dlg_mdyTry lm ld cs = some (m, d, y)) :
    isoShaped ⟨y ++ '-' :: pad2 m ++ '-' :: pad2 d⟩ = true := by
  simp only [dlg_mdyTry] at h
  split at h
  case isTrue hcondm =>
    split at h
    case h_1 =>
      split at h
      case isTrue =>
        split at h
        case isTrue hcondd =>
          split at h
          case h_1 =>
            split at h
            case isTrue =>
              rw [Option.map_eq_some'] at h
              obtain ⟨yy, hyy, hfy⟩ := h
              simp only [Prod.mk.injEq] at hfy
              obtain ⟨hm, hd2, hy⟩ := hfy
              subst hm; subst hd2; subst hy
              simp only [Bool.and_eq_true, decide_eq_true_eq] at hcondm hcondd
              obtain ⟨a, b, c, e, hy, ha, hb, hc, he⟩ := dlg_mdyYear_some _ _ hyy
              have hmlen := hcondm.1
              have hdlen := hcondd.1
              obtain ⟨p, q, hpq, hp, hq⟩ := pad2_digits _
                (by rcases hlm with h1 | h1 <;> rw [hmlen, h1] <;> simp) hcondm.2
              obtain ⟨r, t, hrt, hr, ht⟩ := pad2_digits _
                (by rcases hld with h1 | h1 <;> rw [hdlen, h1] <;> simp) hcondd.2
              rw [hy, hpq, hrt]
              exact isoShaped_build a b c e p q r t ha hb hc he hp hq hr ht
            case isFalse => exact absurd h (by simp)
          case h_2 => exact absurd h (by simp)
        case isFalse => exact absurd h (by simp)
      case isFalse => exact absurd h (by simp)
    case h_2 => exact absurd h (by simp)
  case isFalse => exact absurd h (by simp)

/-- The dialog `M/D/YYYY` match (any of its four greedy alternatives)
always produces an ISO-shaped output. -/
theorem dlg_mdyMatch_some (cs : List Char) (m d y : List Char)
    (h : dlg_mdyMatch cs = some (m, d, y)) :
    isoShaped ⟨y ++ '-' :: pad2 m ++ '-' :: pad2 d⟩ = true := by
  unfold dlg_mdyMatch at h
  split at h
  case h_1 r heq =>
    obtain ⟨m2, d2, y2⟩ := r
    simp only [Option.some.injEq, Prod.mk.injEq] at h
    obtain ⟨hm, hd2, hy⟩ := h
    subst hm; subst hd2; subst hy
    exact dlg_mdyTry_some 2 2 cs _ _ _ (Or.inr rfl) (Or.inr rfl) heq
  case h_2 =>
    split at h
    case h_1 r heq =>
      obtain ⟨m2, d2, y2⟩ := r
      simp only [Option.some.injEq, Prod.mk.injEq] at h
      obtain ⟨hm, hd2, hy⟩ := h
      subst hm; subst hd2; subst hy
      exact dlg_mdyTry_some 2 1 cs _ _ _ (Or.inr rfl) (Or.inl rfl) heq
    case h_2 =>
      split at h
      case h_1 r heq =>
        obtain ⟨m2, d2, y2⟩ := r
        simp only [Option.some.injEq, Prod.mk.injEq] at h
        obtain ⟨hm, hd2, hy⟩ := h
        subst hm; subst hd2; subst hy
        exact dlg_mdyTry_some 1 2 cs _ _ _ (Or.inl rfl) (Or.inr rfl) heq
      case h_2 =>
        exact dlg_mdyTry_some 1 1 cs _ _ _ (Or.inl rfl) (Or.inl rfl) h

/-- An ISO-shaped string is a fixed point of `p1_parseDate`: the
date-time match fails (no 11th character), the exact ISO match fires and
returns the string verbatim. -/
theorem p1_parseDate_of_isoShaped (fb : String → Option String) (d : String)
    (h : isoShaped d = true) : p1_parseDate fb d = some d := by
  unfold isoShaped at h
  split at h
  case h_2 => exact absurd h (by simp)
  case h_1 a b c e f g i j heq =>
    have hne : ¬ d = "" := by
      intro e'
      rw [e'] at heq
      have hz : ("" : String).data = [] := rfl
      rw [hz] at heq
      exact List.noConfusion heq
    have e1 : p1_isoDateTimeMatch d.data = none := by rw [heq]; rfl
    have e2 : p1_isoMatch d.data = some ([a, b, c, e], [f, g], [i, j]) := by
      rw [heq]
      simp only [p1_isoMatch]
      rw [if_pos h]
    have e3 : [a, b, c, e] ++ '-' :: [f, g] ++ '-' :: [i, j] = d.data := by
      rw [heq]
      rfl
    simp only [p1_parseDate, if_neg hne, e1, e2, e3, string_mk_data]

/-- An ISO-shaped string is a fixed point of `dlg_parseDate`: the ISO
prefix match fires on the whole string and rebuilds it verbatim. -/
theorem dlg_parseDate_of_isoShaped (fb : String → Option String) (d : String)
    (h : isoShaped d = true) : dlg_parseDate fb d = some d := by
  unfold isoShaped at h
  split at h
  case h_2 => exact absurd h (by simp)
  case h_1 a b c e f g i j heq =>
    have hne : ¬ d = "" := by
      intro e'
      rw [e'] at heq
      have hz : ("" : String).data = [] := rfl
      rw [hz] at heq
      exact List.noConfusion heq
    have e1 : dlg_isoMatch d.data = some ([a, b, c, e], [f, g], [i, j]) := by
      rw [heq]
      simp only [dlg_isoMatch]
      rw [if_pos h]
    have e3 : [a, b, c, e] ++ '-' :: [f, g] ++ '-' :: [i, j] = d.data := by
      rw [heq]
      rfl
    simp only [dlg_parseDate, if_neg hne, e1, e3, string_mk_data]

/-- Claim C8.  For every date string accepted through the recognised
regex formats of `parseDate` (either copy; the JS `Date` fallback is
arbitrary and unreached), the output has the shape `YYYY-MM-DD`, and
feeding that output back into the same `parseDate` returns it unchanged
(idempotence under reformatting). -/
theorem C8_parseDate_idempotent :
    (∀ (fb : String → Option String) (s d : String),
      p1_recognizedDate s = true → p1_parseDate fb s = some d →
      isoShaped d = true ∧ p1_parseDate fb d = some d) ∧
    (∀ (fb : String → Option String) (s d : String),
      dlg_recognizedDate s = true → dlg_parseDate fb s = some d →
      isoShaped d = true ∧ dlg_parseDate fb d = some d) := by
  constructor
  · intro fb s d hrec h
    have hshape : isoShaped d = true := by
      unfold p1_parseDate at h
      by_cases hs : s = ""
      · subst hs
        exact absurd hrec (by decide)
      · rw [if_neg hs] at h
        cases h1 : p1_isoDateTimeMatch s.data with
        | some r =>
            obtain ⟨y, m, dd⟩ := r
            rw [h1] at h
            simp only [Option.some.injEq] at h
            rw [← h]
            exact p1_isoDateTimeMatch_some _ _ _ _ h1
        | none =>
            rw [h1] at h
            cases h2 : p1_isoMatch s.data with
            | some r =>
                obtain ⟨y, m, dd⟩ := r
                rw [h2] at h
                simp only [Option.some.injEq] at h
                rw [← h]
                exact p1_isoMatch_some _ _ _ _ h2
            | none =>
                rw [h2] at h
                cases h3 : p1_mdyMatch s.data with
                | some r =>
                    obtain ⟨m, dd, y⟩ := r
                    rw [h3] at h
                    simp only [Option.some.injEq] at h
                    rw [← h]
                    exact p1_mdyMatch_some _ _ _ _ h3
                | none =>
                    exact absurd hrec (by
                      simp [p1_recognizedDate, h1, h2, h3])
    exact ⟨hshape, p1_parseDate_of_isoShaped fb d hshape⟩
  · intro fb s d hrec h
    have hshape : isoShaped d = true := by
      unfold dlg_parseDate at h
      by_cases hs : s = ""
      · subst hs
        exact absurd hrec (by decide)
      · rw [if_neg hs] at h
        cases h1 : dlg_isoMatch s.data with
        | some r =>
            obtain ⟨y, m, dd⟩ := r
            rw [h1] at h
            simp only [Option.some.injEq] at h
            rw [← h]
            exact dlg_isoMatch_some _ _ _ _ h1
        | none =>
            rw [h1] at h
            cases h2 : dlg_mdyMatch s.data with
            | some r =>
                obtain ⟨m, dd, y⟩ := r
                rw [h2] at h
                simp only [Option.some.injEq] at h
                rw [← h]
                exact dlg_mdyMatch_some _ _ _ _ h2
            | none =>
                exact absurd hrec (by
                  simp [dlg_recognizedDate, h1, h2])
    exact ⟨hshape, dlg_parseDate_of_isoShaped fb d hshape⟩

/-- Claim C8 — witness: `"1/8/2026"` is recognised, and the output
`"2026-01-08"` is ISO-shaped and is returned unchanged when fed back
(for both copies; the dialog copy also accepts a trailing remainder). -/
theorem C8_parseDate_witness :
    (p1_recognizedDate "1/8/2026" = true ∧
      isoShaped "2026-01-08" = true ∧
      p1_parseDate (fun _ => none) "2026-01-08" = some "2026-01-08") ∧
    (dlg_recognizedDate "1/8/2026 extra" = true ∧
      isoShaped "2026-01-08" = true ∧
      dlg_parseDate (fun _ => none) "2026-01-08" = some "2026-01-08") :=
  ⟨⟨by decide, C8_parseDate_idempotent.1 (fun _ => none) "1/8/2026" "2026-01-08"
      (by decide) (by decide)⟩,
   ⟨by decide, C8_parseDate_idempotent.2 (fun _ => none) "1/8/2026 extra" "2026-01-08"
      (by decide) (by decide)⟩⟩

end Fin818
